import Mathlib

/-
Verification of the offline speaker-diarization pipeline
(whisper_live/diarization.py, class OfflineDiarizer).

Floating-point seconds are modelled as rationals; Python dicts/JSON values
as an inductive Json type; fallible operations return Except.
-/

namespace Diarization

/-- A JSON value, as produced by json.load. Objects keep field order;
`List.lookup` finds the first binding, matching dict semantics when keys
are distinct (json.load keeps one binding per key). -/
inductive Json where
  | null : Json
  | bool (b : Bool) : Json
  | num (q : ℚ) : Json
  | str (s : String) : Json
  | arr (xs : List Json) : Json
  | obj (fields : List (String × Json)) : Json

/-- Error message of the ValueError raised by load_transcription
(source quotes the word segments; quotes elided here). -/
def invalidFormatMsg : String :=
  "Invalid transcription format. Expected list or dict with segments key."

/-- OfflineDiarizer.load_transcription after json.load: a top-level list is
returned as is; a dict with a segments key returns that key's value
(whatever it is); anything else raises ValueError. -/
def load_transcription : Json → Except String Json
  | Json.arr xs => Except.ok (Json.arr xs)
  | Json.obj fields =>
      match fields.lookup "segments" with
      | some v => Except.ok v
      | none => Except.error invalidFormatMsg
  | _ => Except.error invalidFormatMsg

/-- One speaker turn (start, end, speaker) as returned by diarize_file. -/
structure Turn where
  start : ℚ
  end_ : ℚ
  speaker : String

/-- One transcription segment before alignment: start, end, text. -/
structure Seg where
  start : ℚ
  end_ : ℚ
  text : String

/-- A segment after assign_speakers attached its speaker field. -/
structure LabeledSeg where
  start : ℚ
  end_ : ℚ
  text : String
  speaker : String

/-- Temporal overlap of segment [s,e] and turn [ts,te], exactly as computed
in assign_speakers: overlap_start = max(s,ts), overlap_end = min(e,te),
overlap = max(0, overlap_end - overlap_start). -/
def overlap (segStart segEnd ts te : ℚ) : ℚ :=
  let overlap_start := max segStart ts
  let overlap_end := min segEnd te
  max 0 (overlap_end - overlap_start)

/-- One iteration of the inner loop of assign_speakers: the accumulator is
(best_overlap, best_speaker); a turn displaces it only on strictly greater
overlap. -/
def bestStep (segStart segEnd : ℚ) (acc : ℚ × Option String) (t : Turn) :
    ℚ × Option String :=
  let o := overlap segStart segEnd t.start t.end_
  if acc.1 < o then (o, some t.speaker) else acc

/-- Processing of one segment by assign_speakers: scan all turns starting
from best_overlap = 0.0, best_speaker = None; afterwards
seg.speaker = best_speaker if best_speaker else UNKNOWN, where a None or
empty-string best_speaker is falsy. -/
def assignOne (dz : List Turn) (seg : Seg) : LabeledSeg :=
  let best := dz.foldl (bestStep seg.start seg.end_) (0, none)
  let sp :=
    match best.2 with
    | some s => if s = "" then "UNKNOWN" else s
    | none => "UNKNOWN"
  ⟨seg.start, seg.end_, seg.text, sp⟩

/-- OfflineDiarizer.assign_speakers: label every segment from the turn
list. -/
def assign_speakers (segments : List Seg) (dz : List Turn) :
    List LabeledSeg :=
  segments.map (assignOne dz)

/-- Python round(x, ndigits), modelled as rounding x * 10^ndigits to the
nearest integer. Python uses banker's rounding, which differs from
Int-round only exactly halfway between representable values. -/
def pyRound (ndigits : ℕ) (q : ℚ) : ℚ :=
  (round (q * 10 ^ ndigits) : ℤ) / 10 ^ ndigits

/-- The audio-duration statistics block of process: the wave probe either
fails (none) or yields (nframes, framerate); audio_duration =
nframes / framerate and realtime_factor = total_elapsed / audio_duration,
with any exception - including either ZeroDivisionError - caught and both
values degraded to None. -/
def audioStats (probe : Option (ℕ × ℕ)) (total_elapsed : ℚ) :
    Option ℚ × Option ℚ :=
  match probe with
  | none => (none, none)
  | some (nframes, framerate) =>
    if framerate = 0 then (none, none)
    else
      let audio_duration : ℚ := (nframes : ℚ) / (framerate : ℚ)
      if audio_duration = 0 then (none, none)
      else (some audio_duration, some (total_elapsed / audio_duration))

/-- The timing dict built at the end of process: every key is present;
audio_seconds and realtime_factor are None (null) when the corresponding
value is missing or falsy (0 is falsy in Python). -/
def timing_fields (total_elapsed : ℚ) (probe : Option (ℕ × ℕ)) :
    List (String × Json) :=
  let stats := audioStats probe total_elapsed
  [("processing_seconds", Json.num (pyRound 1 total_elapsed)),
   ("audio_seconds",
     match stats.1 with
     | some d => if d = 0 then Json.null else Json.num (pyRound 1 d)
     | none => Json.null),
   ("realtime_factor",
     match stats.2 with
     | some rf => if rf = 0 then Json.null else Json.num (pyRound 2 rf)
     | none => Json.null)]

/-- The dict returned by OfflineDiarizer.process. -/
structure ProcessResult where
  segments : List LabeledSeg
  speakers : List String
  diarization : List Turn
  timing : List (String × Json)

/-- The pure core of OfflineDiarizer.process: the loaded segments, the
turn list returned by diarize_file, the measured wall-clock time and the
wave-probe outcome are inputs from the environment; speakers =
sorted(set(seg.speaker for seg in segments_with_speakers)). -/
def process (segments : List Seg) (dz : List Turn) (total_elapsed : ℚ)
    (probe : Option (ℕ × ℕ)) : ProcessResult :=
  let segments_with_speakers := assign_speakers segments dz
  let speakers :=
    List.insertionSort (· ≤ ·)
      (segments_with_speakers.map (fun seg => seg.speaker)).dedup
  { segments := segments_with_speakers
    speakers := speakers
    diarization := dz
    timing := timing_fields total_elapsed probe }

/-- Modelled from the claim's words (C5): the shapes the claim says are
the only accepted ones - a top-level array, or a top-level object whose
segments field holds such an array. "Array of segment objects" is read
generously as any array; a stricter reading only shrinks this set. -/
def claimAcceptedShape (j : Json) : Prop :=
  (∃ xs, j = Json.arr xs) ∨
  (∃ fields xs, j = Json.obj fields ∧
    fields.lookup "segments" = some (Json.arr xs))

/-- A Python object as seen by the result-shape adapter in diarize_file:
a type name and an attribute dictionary, listed in dir() order. -/
inductive PyObj where
  | mk (typeName : String) (attrs : List (String × PyObj))

def PyObj.typeName : PyObj → String
  | .mk n _ => n

def PyObj.attrs : PyObj → List (String × PyObj)
  | .mk _ a => a

/-- hasattr(obj, name). -/
def hasattr (r : PyObj) (name : String) : Bool :=
  (r.attrs.lookup name).isSome

/-- getattr(obj, name), defined on the names dir() lists. -/
def getattr (r : PyObj) (name : String) : Option PyObj :=
  r.attrs.lookup name

/-- The result-shape adapter of diarize_file: use the object itself if it
has itertracks; else its annotation attribute; else its diarization
attribute; else the first attribute in dir() order that has itertracks;
else raise ValueError naming the observed type. -/
def extract_diarization (r : PyObj) : Except String PyObj :=
  if hasattr r "itertracks" then Except.ok r
  else
    match getattr r "annotation" with
    | some a => Except.ok a
    | none =>
      match getattr r "diarization" with
      | some d => Except.ok d
      | none =>
        match r.attrs.find? (fun p => hasattr p.2 "itertracks") with
        | some p => Except.ok p.2
        | none =>
          Except.error
            ("Cannot extract diarization from result type: " ++ r.typeName)

/-- The try/finally around the blocking diarization call in diarize_file:
whether the pipeline call returns or raises, stop_progress.set() runs in
the finally block; the Bool records the flag's final state. -/
def diarize_call {α : Type} (run : Except String α) :
    Except String α × Bool :=
  match run with
  | Except.ok a => (Except.ok a, true)
  | Except.error e => (Except.error e, true)

/-- The print_progress worker under a discrete time model: it blocks in
stop_progress.wait(30), waking at times w = 30, 60, ...; the wait call
reports the flag, which is set from time stopAt onwards; an unset flag
means a progress notice is printed at w and the loop continues. fuel
bounds the iterations inspected; the result lists the print times. -/
def print_progress_times (stopAt : ℕ) : ℕ → ℕ → List ℕ
  | 0, _ => []
  | fuel + 1, w =>
    if stopAt ≤ w then []
    else w :: print_progress_times stopAt fuel (w + 30)

/-! ### Helper lemmas about the best-overlap scan -/

theorem overlap_nonneg (s e ts te : ℚ) : 0 ≤ overlap s e ts te :=
  le_max_left _ _

/-- Turns whose overlap does not exceed the current best leave the
accumulator unchanged (the comparison is strict). -/
theorem foldl_bestStep_le (ss se : ℚ) (L : List Turn) (b : ℚ)
    (sp : Option String)
    (h : ∀ t ∈ L, overlap ss se t.start t.end_ ≤ b) :
    L.foldl (bestStep ss se) (b, sp) = (b, sp) := by
  induction L with
  | nil => rfl
  | cons t L ih =>
    have ht : overlap ss se t.start t.end_ ≤ b :=
      h t (List.mem_cons_self t L)
    have hstep : bestStep ss se (b, sp) t = (b, sp) := by
      simp [bestStep, not_lt.mpr ht]
    simp only [List.foldl_cons, hstep]
    exact ih fun u hu => h u (List.mem_cons_of_mem t hu)

/-- The running best stays strictly below a bound that dominates the
starting value and every overlap seen. -/
theorem foldl_bestStep_lt (ss se : ℚ) (L : List Turn) (m : ℚ) :
    ∀ (b : ℚ) (sp : Option String), b < m →
      (∀ t ∈ L, overlap ss se t.start t.end_ < m) →
      (L.foldl (bestStep ss se) (b, sp)).1 < m ∧
        ∃ sp', L.foldl (bestStep ss se) (b, sp) =
          ((L.foldl (bestStep ss se) (b, sp)).1, sp') := by
  induction L with
  | nil => exact fun b sp hb _ => ⟨hb, sp, rfl⟩
  | cons t L ih =>
    intro b sp hb h
    have ht : overlap ss se t.start t.end_ < m :=
      h t (List.mem_cons_self t L)
    simp only [List.foldl_cons, bestStep]
    by_cases hc : (b, sp).1 < overlap ss se t.start t.end_
    · rw [if_pos hc]
      exact ih _ _ ht fun u hu => h u (List.mem_cons_of_mem t hu)
    · rw [if_neg hc]
      exact ih b sp hb fun u hu => h u (List.mem_cons_of_mem t hu)

/-- Scanning `pre ++ t :: post` where every turn of `pre` has overlap
strictly below `t`'s and every turn of `post` has overlap at most `t`'s
ends with `t` as the recorded best. -/
theorem foldl_bestStep_first_max (ss se : ℚ) (t : Turn) :
    ∀ (pre : List Turn) (post : List Turn) (b : ℚ) (sp : Option String),
      b < overlap ss se t.start t.end_ →
      (∀ u ∈ pre,
        overlap ss se u.start u.end_ < overlap ss se t.start t.end_) →
      (∀ u ∈ post,
        overlap ss se u.start u.end_ ≤ overlap ss se t.start t.end_) →
      (pre ++ t :: post).foldl (bestStep ss se) (b, sp) =
        (overlap ss se t.start t.end_, some t.speaker) := by
  intro pre
  induction pre with
  | nil =>
    intro post b sp hb _ hpost
    have hstep : bestStep ss se (b, sp) t =
        (overlap ss se t.start t.end_, some t.speaker) := by
      simp [bestStep, hb]
    simp only [List.nil_append, List.foldl_cons, hstep]
    exact foldl_bestStep_le ss se post _ _ hpost
  | cons u pre ih =>
    intro post b sp hb hpre hpost
    have hu : overlap ss se u.start u.end_ < overlap ss se t.start t.end_ :=
      hpre u (List.mem_cons_self u pre)
    simp only [List.cons_append, List.foldl_cons, bestStep]
    by_cases hc : (b, sp).1 < overlap ss se u.start u.end_
    · rw [if_pos hc]
      exact ih post _ _ hu
        (fun v hv => hpre v (List.mem_cons_of_mem u hv)) hpost
    · rw [if_neg hc]
      exact ih post b sp hb
        (fun v hv => hpre v (List.mem_cons_of_mem u hv)) hpost

theorem assign_speakers_length (segments : List Seg) (dz : List Turn) :
    (assign_speakers segments dz).length = segments.length :=
  List.length_map _ _

theorem assign_speakers_get (segments : List Seg) (dz : List Turn)
    (n : ℕ) (hn : n < segments.length)
    (hn' : n < (assign_speakers segments dz).length) :
    (assign_speakers segments dz).get ⟨n, hn'⟩ =
      assignOne dz (segments.get ⟨n, hn⟩) := by
  simp [assign_speakers]

/-! ### Claim theorems -/

/-- C1: the temporal overlap computed by assign_speakers for segment
[s,e] and turn [ts,te] equals max(0, min(e,te) - max(s,ts)); it is 0 on
disjoint intervals, the inner length on nested intervals (either
nesting), and the common length on identical intervals. -/
theorem overlap_correct (s e ts te : ℚ) :
    overlap s e ts te = max 0 (min e te - max s ts) ∧
    (e ≤ ts ∨ te ≤ s → overlap s e ts te = 0) ∧
    (s ≤ ts → ts ≤ te → te ≤ e → overlap s e ts te = te - ts) ∧
    (ts ≤ s → s ≤ e → e ≤ te → overlap s e ts te = e - s) ∧
    (s = ts → e = te → s ≤ e → overlap s e ts te = e - s) := by
  refine ⟨rfl, ?_, ?_, ?_, ?_⟩
  · rintro (h | h) <;>
      simp only [overlap, min_def, max_def] <;> split_ifs <;> linarith
  · intro h1 h2 h3
    simp only [overlap, min_def, max_def]
    split_ifs <;> linarith
  · intro h1 h2 h3
    simp only [overlap, min_def, max_def]
    split_ifs <;> linarith
  · intro h1 h2 h3
    subst h1; subst h2
    simp only [overlap, min_def, max_def]
    split_ifs <;> linarith

theorem overlap_correct_witness :
    ((2 : ℚ) ≤ 3 ∨ (4 : ℚ) ≤ 0) ∧ overlap 0 2 3 4 = 0 :=
  ⟨Or.inl (by norm_num),
    (overlap_correct 0 2 3 4).2.1 (Or.inl (by norm_num))⟩

/-- C3: a segment whose overlap with every turn is 0 (in particular when
the turn list is empty) is assigned the sentinel label UNKNOWN. -/
theorem assign_speakers_sentinel (segments : List Seg) (dz : List Turn)
    (n : ℕ) (hn : n < segments.length)
    (hn' : n < (assign_speakers segments dz).length)
    (h0 : ∀ u ∈ dz,
      overlap (segments.get ⟨n, hn⟩).start (segments.get ⟨n, hn⟩).end_
        u.start u.end_ = 0) :
    ((assign_speakers segments dz).get ⟨n, hn'⟩).speaker = "UNKNOWN" := by
  rw [assign_speakers_get segments dz n hn hn']
  have hfold :
      dz.foldl
        (bestStep (segments.get ⟨n, hn⟩).start (segments.get ⟨n, hn⟩).end_)
        (0, none) = (0, none) :=
    foldl_bestStep_le _ _ dz 0 none fun u hu => le_of_eq (h0 u hu)
  simp only [assignOne]
  rw [hfold]

theorem assign_speakers_sentinel_witness :
    ((assign_speakers [⟨5, 6, "x"⟩] [⟨0, 1, "A"⟩]).get
      ⟨0, by norm_num [assign_speakers]⟩).speaker = "UNKNOWN" :=
  assign_speakers_sentinel [⟨5, 6, "x"⟩] [⟨0, 1, "A"⟩] 0 (by norm_num)
    (by norm_num [assign_speakers])
    (by
      intro u hu
      simp only [List.mem_singleton] at hu
      subst hu
      norm_num [overlap, min_def, max_def])

/-- C2 (amended): when two or more turns attain the same maximal positive
overlap with a segment and the earliest such turn carries a non-empty
speakerId, assign_speakers assigns that speakerId: a later turn displaces
the current best only on strictly larger overlap. (The turn list is
written pre ++ t :: post with t the earliest maximal turn.) -/
theorem assign_speakers_tie_break (segments : List Seg)
    (pre post : List Turn) (t : Turn) (n : ℕ)
    (hn : n < segments.length)
    (hn' : n < (assign_speakers segments (pre ++ t :: post)).length)
    (hpos : 0 < overlap (segments.get ⟨n, hn⟩).start
      (segments.get ⟨n, hn⟩).end_ t.start t.end_)
    (hpre : ∀ u ∈ pre,
      overlap (segments.get ⟨n, hn⟩).start (segments.get ⟨n, hn⟩).end_
          u.start u.end_ <
        overlap (segments.get ⟨n, hn⟩).start (segments.get ⟨n, hn⟩).end_
          t.start t.end_)
    (hpost : ∀ u ∈ post,
      overlap (segments.get ⟨n, hn⟩).start (segments.get ⟨n, hn⟩).end_
          u.start u.end_ ≤
        overlap (segments.get ⟨n, hn⟩).start (segments.get ⟨n, hn⟩).end_
          t.start t.end_)
    (_htie : ∃ u ∈ post,
      overlap (segments.get ⟨n, hn⟩).start (segments.get ⟨n, hn⟩).end_
          u.start u.end_ =
        overlap (segments.get ⟨n, hn⟩).start (segments.get ⟨n, hn⟩).end_
          t.start t.end_)
    (hlab : t.speaker ≠ "") :
    ((assign_speakers segments (pre ++ t :: post)).get ⟨n, hn'⟩).speaker =
      t.speaker := by
  rw [assign_speakers_get segments (pre ++ t :: post) n hn hn']
  simp only [assignOne]
  rw [foldl_bestStep_first_max _ _ t pre post 0 none hpos hpre hpost]
  simp [hlab]

theorem assign_speakers_tie_break_witness :
    ((assign_speakers [⟨0, 2, "hi"⟩] ([] ++ (⟨0, 1, "A"⟩ : Turn) ::
        [⟨1, 3, "B"⟩])).get ⟨0, by norm_num [assign_speakers]⟩).speaker
      = "A" :=
  assign_speakers_tie_break [⟨0, 2, "hi"⟩] [] [⟨1, 3, "B"⟩] ⟨0, 1, "A"⟩ 0
    (by norm_num) (by norm_num [assign_speakers])
    (by norm_num [overlap, min_def, max_def])
    (by intro u hu; simp at hu)
    (by
      intro u hu
      simp only [List.mem_singleton] at hu
      subst hu
      norm_num [overlap, min_def, max_def])
    ⟨⟨1, 3, "B"⟩, List.mem_singleton.mpr rfl,
      by norm_num [overlap, min_def, max_def]⟩
    (by decide)

/-- C2 counterexample: segment [0,2]; turns [0,1] with empty speakerId and
[1,2] with speakerId B tie at the maximal positive overlap 1; the claim
says the earliest turn's speakerId (the empty string) is assigned, but the
code assigns UNKNOWN because the empty label is falsy. -/
theorem assign_speakers_tie_break_counterexample :
    overlap 0 2 0 1 = 1 ∧ overlap 0 2 1 2 = 1 ∧
    (([⟨0, 1, ""⟩, ⟨1, 2, "B"⟩] : List Turn).get
      ⟨0, by norm_num⟩).speaker = "" ∧
    ((assign_speakers [⟨0, 2, "hi"⟩] [⟨0, 1, ""⟩, ⟨1, 2, "B"⟩]).get
      ⟨0, by norm_num [assign_speakers]⟩).speaker = "UNKNOWN" := by
  refine ⟨by norm_num [overlap, min_def, max_def],
    by norm_num [overlap, min_def, max_def], rfl, ?_⟩
  norm_num [assign_speakers, assignOne, bestStep, overlap, min_def, max_def]

/-- C10: when the turn with maximal positive overlap carries the falsy
empty-string label, assign_speakers sets the segment's speaker to UNKNOWN
even though a positively overlapping turn exists: the final sentinel check
tests the truthiness of the selected label. -/
theorem assign_speakers_falsy_label (segments : List Seg)
    (pre post : List Turn) (t : Turn) (n : ℕ)
    (hn : n < segments.length)
    (hn' : n < (assign_speakers segments (pre ++ t :: post)).length)
    (hpos : 0 < overlap (segments.get ⟨n, hn⟩).start
      (segments.get ⟨n, hn⟩).end_ t.start t.end_)
    (hpre : ∀ u ∈ pre,
      overlap (segments.get ⟨n, hn⟩).start (segments.get ⟨n, hn⟩).end_
          u.start u.end_ <
        overlap (segments.get ⟨n, hn⟩).start (segments.get ⟨n, hn⟩).end_
          t.start t.end_)
    (hpost : ∀ u ∈ post,
      overlap (segments.get ⟨n, hn⟩).start (segments.get ⟨n, hn⟩).end_
          u.start u.end_ ≤
        overlap (segments.get ⟨n, hn⟩).start (segments.get ⟨n, hn⟩).end_
          t.start t.end_)
    (hlab : t.speaker = "") :
    ((assign_speakers segments (pre ++ t :: post)).get ⟨n, hn'⟩).speaker =
      "UNKNOWN" := by
  rw [assign_speakers_get segments (pre ++ t :: post) n hn hn']
  simp only [assignOne]
  rw [foldl_bestStep_first_max _ _ t pre post 0 none hpos hpre hpost]
  simp [hlab]

theorem assign_speakers_falsy_label_witness :
    ((assign_speakers [⟨0, 2, "hi"⟩] ([] ++ (⟨0, 1, ""⟩ : Turn) ::
        [])).get ⟨0, by norm_num [assign_speakers]⟩).speaker
      = "UNKNOWN" :=
  assign_speakers_falsy_label [⟨0, 2, "hi"⟩] [] [] ⟨0, 1, ""⟩ 0
    (by norm_num) (by norm_num [assign_speakers])
    (by norm_num [overlap, min_def, max_def])
    (by intro u hu; simp at hu)
    (by intro u hu; simp at hu)
    rfl

/-- C4: the speakers field of a completed process run is the sorted
sequence of the distinct speaker values over the returned segments
(UNKNOWN counted like any other label): it is sorted, duplicate-free, and
contains exactly the labels occurring on the segments. -/
theorem process_speakers_sorted_distinct (segments : List Seg)
    (dz : List Turn) (total_elapsed : ℚ) (probe : Option (ℕ × ℕ)) :
    (process segments dz total_elapsed probe).speakers.Sorted (· ≤ ·) ∧
    (process segments dz total_elapsed probe).speakers.Nodup ∧
    ∀ s : String,
      s ∈ (process segments dz total_elapsed probe).speakers ↔
        ∃ seg ∈ (process segments dz total_elapsed probe).segments,
          seg.speaker = s := by
  refine ⟨List.sorted_insertionSort _ _,
    ((List.perm_insertionSort _ _).nodup_iff).mpr (List.nodup_dedup _), ?_⟩
  intro s
  show s ∈ List.insertionSort _ _ ↔ _
  rw [(List.perm_insertionSort _ _).mem_iff, List.mem_dedup, List.mem_map]
  constructor
  · rintro ⟨seg, hseg, rfl⟩
    exact ⟨seg, hseg, rfl⟩
  · rintro ⟨seg, hseg, rfl⟩
    exact ⟨seg, hseg, rfl⟩

theorem process_speakers_sorted_distinct_witness :
    "A" ∈ (process [⟨0, 2, "hi"⟩] [⟨0, 1, "A"⟩] 1 none).speakers :=
  ((process_speakers_sorted_distinct [⟨0, 2, "hi"⟩] [⟨0, 1, "A"⟩] 1
      none).2.2 "A").mpr
    ⟨⟨0, 2, "hi", "A"⟩,
      by
        norm_num [process, assign_speakers, assignOne, bestStep, overlap,
          min_def, max_def]
        decide,
      rfl⟩

/-- C5 (amended): load_transcription fails, with the message naming the
expected shapes, exactly when the top-level value is neither an array nor
an object containing a field named segments; the value bound to segments
is returned without checking that it is an array; in particular the
object with lone field foo fails this way. -/
theorem load_transcription_shape (j : Json) :
    (load_transcription j = Except.error invalidFormatMsg ↔
      ¬ ((∃ xs, j = Json.arr xs) ∨
        (∃ fields, j = Json.obj fields ∧
          (fields.lookup "segments").isSome))) ∧
    load_transcription (Json.obj [("foo", Json.arr [])]) =
      Except.error invalidFormatMsg := by
  refine ⟨?_, rfl⟩
  cases j with
  | null => simp [load_transcription]
  | bool b => simp [load_transcription]
  | num q => simp [load_transcription]
  | str s => simp [load_transcription]
  | arr xs => simp [load_transcription]
  | obj fields =>
    cases h : fields.lookup "segments" with
    | none =>
      have hload : load_transcription (Json.obj fields) =
          Except.error invalidFormatMsg := by
        simp [load_transcription, h]
      rw [hload]
      constructor
      · intro _
        rintro (⟨xs, hx⟩ | ⟨fields', hf, hs⟩)
        · exact Json.noConfusion hx
        · rw [Json.obj.injEq] at hf
          rw [← hf, h] at hs
          simp at hs
      · intro _; rfl
    | some v =>
      have hload : load_transcription (Json.obj fields) = Except.ok v := by
        simp [load_transcription, h]
      rw [hload]
      constructor
      · intro hl; exact Except.noConfusion hl
      · intro hr
        exact absurd (Or.inr ⟨fields, rfl, by rw [h]; rfl⟩) hr

theorem load_transcription_shape_witness :
    load_transcription Json.null = Except.error invalidFormatMsg :=
  (load_transcription_shape Json.null).1.mpr (by
    rintro (⟨xs, h⟩ | ⟨fields, h, _⟩) <;> exact Json.noConfusion h)

/-- C5 counterexample: an object whose segments field holds the number 5
matches neither shape the claim accepts, yet load_transcription succeeds
on it and returns the number unchecked, so the claim that every other
top-level shape fails is false. -/
theorem load_transcription_counterexample :
    ¬ claimAcceptedShape (Json.obj [("segments", Json.num 5)]) ∧
    load_transcription (Json.obj [("segments", Json.num 5)]) =
      Except.ok (Json.num 5) := by
  refine ⟨?_, rfl⟩
  rintro (⟨xs, h⟩ | ⟨fields, xs, h, hl⟩)
  · exact Json.noConfusion h
  · rw [Json.obj.injEq] at h
    rw [← h] at hl
    simp [List.lookup] at hl

/-- C6: a bare-array transcript and the object form holding the same
array load identically, hence produce identical aligned output for the
same turn list, whatever decoding takes the loaded value to segments. -/
theorem load_transcription_round_trip (xs : List Json) :
    load_transcription (Json.arr xs) =
      load_transcription (Json.obj [("segments", Json.arr xs)]) ∧
    ∀ (decode : Json → List Seg) (dz : List Turn),
      Except.map (fun j => assign_speakers (decode j) dz)
          (load_transcription (Json.arr xs)) =
        Except.map (fun j => assign_speakers (decode j) dz)
          (load_transcription (Json.obj [("segments", Json.arr xs)])) := by
  have h : load_transcription (Json.obj [("segments", Json.arr xs)]) =
      Except.ok (Json.arr xs) := by
    simp [load_transcription, List.lookup]
  exact ⟨by rw [h]; rfl, fun decode dz => by rw [h]; rfl⟩

/-- C7: diarize_file adapts the raw result by trying, first success
winning: the object itself when it has itertracks; its annotation
attribute; its diarization attribute; the first attribute in dir() order
that has itertracks; and otherwise fails with the error naming the
observed type. -/
theorem extract_diarization_priority (r : PyObj) :
    (hasattr r "itertracks" = true → extract_diarization r = Except.ok r) ∧
    (hasattr r "itertracks" = false →
      ∀ a, getattr r "annotation" = some a →
        extract_diarization r = Except.ok a) ∧
    (hasattr r "itertracks" = false → getattr r "annotation" = none →
      ∀ d, getattr r "diarization" = some d →
        extract_diarization r = Except.ok d) ∧
    (hasattr r "itertracks" = false → getattr r "annotation" = none →
      getattr r "diarization" = none →
      ∀ p, r.attrs.find? (fun q => hasattr q.2 "itertracks") = some p →
        extract_diarization r = Except.ok p.2) ∧
    (hasattr r "itertracks" = false → getattr r "annotation" = none →
      getattr r "diarization" = none →
      r.attrs.find? (fun q => hasattr q.2 "itertracks") = none →
      extract_diarization r = Except.error
        ("Cannot extract diarization from result type: " ++ r.typeName)) := by
  refine ⟨?_, ?_, ?_, ?_, ?_⟩
  · intro h1
    simp [extract_diarization, h1]
  · intro h1 a h2
    simp [extract_diarization, h1, h2]
  · intro h1 h2 d h3
    simp [extract_diarization, h1, h2, h3]
  · intro h1 h2 h3 p h4
    simp [extract_diarization, h1, h2, h3, h4]
  · intro h1 h2 h3 h4
    simp [extract_diarization, h1, h2, h3, h4]

theorem extract_diarization_priority_witness :
    extract_diarization (PyObj.mk "DiarizeOutput" []) =
      Except.error
        ("Cannot extract diarization from result type: " ++ "DiarizeOutput") :=
  (extract_diarization_priority (PyObj.mk "DiarizeOutput" [])).2.2.2.2
    rfl rfl rfl rfl

theorem mem_print_progress_times (stopAt : ℕ) :
    ∀ (fuel w t : ℕ),
      t ∈ print_progress_times stopAt fuel w ↔
        w ≤ t ∧ t < stopAt ∧ 30 ∣ (t - w) ∧ t < w + 30 * fuel := by
  intro fuel
  induction fuel with
  | zero =>
    intro w t
    simp only [print_progress_times, List.not_mem_nil, false_iff]
    omega
  | succ fuel ih =>
    intro w t
    simp only [print_progress_times]
    by_cases h : stopAt ≤ w
    · rw [if_pos h]
      simp only [List.not_mem_nil, false_iff]
      omega
    · rw [if_neg h]
      rw [List.mem_cons, ih (w + 30) t]
      constructor
      · rintro (rfl | ⟨h1, h2, h3, h4⟩)
        · refine ⟨le_refl t, by omega, by omega, by omega⟩
        · exact ⟨by omega, h2, by omega, by omega⟩
      · rintro ⟨h1, h2, h3, h4⟩
        by_cases ht : t = w
        · exact Or.inl ht
        · exact Or.inr ⟨by omega, h2, by omega, by omega⟩

/-- C8: the one-shot stop flag is set on every exit of the blocking
diarization call, normal return or raised exception; the reporter prints
a notice exactly at the positive multiples of 30 time units reached
strictly before the flag is set - hence none after the call completes -
provided the fuel bound covers the blocking interval. -/
theorem diarize_progress_reporter {α : Type} (run : Except String α)
    (stopAt fuel t : ℕ) :
    (diarize_call run).2 = true ∧
    (t ∈ print_progress_times stopAt fuel 30 →
      30 ∣ t ∧ 0 < t ∧ t < stopAt) ∧
    (30 ∣ t → 0 < t → t < stopAt → stopAt ≤ 30 + 30 * fuel →
      t ∈ print_progress_times stopAt fuel 30) := by
  refine ⟨by cases run <;> rfl, ?_, ?_⟩
  · intro h
    have := (mem_print_progress_times stopAt fuel 30 t).mp h
    omega
  · intro h1 h2 h3 h4
    exact (mem_print_progress_times stopAt fuel 30 t).mpr (by omega)

theorem diarize_progress_reporter_witness :
    (30 ∣ 60 ∧ 0 < 60 ∧ 60 < 100 ∧ 100 ≤ 30 + 30 * 4) ∧
    60 ∈ print_progress_times 100 4 30 :=
  ⟨by norm_num,
    (diarize_progress_reporter (Except.ok (0 : ℕ)) 100 4 60).2.2
      (by norm_num) (by norm_num) (by norm_num) (by norm_num)⟩

/-- C9 (amended): when the duration probe fails, reports a zero framerate,
or reports zero frames (so the realtime-factor division would divide by
zero), process still completes and the audio_seconds and realtime_factor
entries of the timing dict are present and bound to null - nulled rather
than omitted - while processing_seconds is still reported. -/
theorem process_timing_degrades (segments : List Seg) (dz : List Turn)
    (total_elapsed : ℚ) (probe : Option (ℕ × ℕ))
    (h : probe = none ∨ (∃ nf, probe = some (nf, 0)) ∨
      ∃ fr, probe = some (0, fr)) :
    (process segments dz total_elapsed probe).timing.lookup "audio_seconds"
        = some Json.null ∧
    (process segments dz total_elapsed probe).timing.lookup
        "realtime_factor" = some Json.null ∧
    (process segments dz total_elapsed probe).timing.lookup
        "processing_seconds" =
      some (Json.num (pyRound 1 total_elapsed)) := by
  rcases h with rfl | ⟨nf, rfl⟩ | ⟨fr, rfl⟩
  · simp [process, timing_fields, audioStats, List.lookup]
  · simp [process, timing_fields, audioStats, List.lookup]
  · by_cases hfr : fr = 0
    · subst hfr
      simp [process, timing_fields, audioStats, List.lookup]
    · simp [process, timing_fields, audioStats, List.lookup, hfr]

theorem process_timing_degrades_witness :
    (process [] [] 1 (some (0, 16000))).timing.lookup "audio_seconds" =
      some Json.null :=
  (process_timing_degrades [] [] 1 (some (0, 16000))
    (Or.inr (Or.inr ⟨16000, rfl⟩))).1

/-- C9 counterexample: with the duration probe failing the run completes,
but the timing dict still contains the audio_seconds key, bound to null -
the affected field is nulled, not omitted as the claim states. -/
theorem process_timing_not_omitted :
    (process [] [] 1 none).timing.lookup "audio_seconds" =
      some Json.null ∧
    "audio_seconds" ∈ (process [] [] 1 none).timing.map Prod.fst := by
  constructor <;> simp [process, timing_fields, audioStats, List.lookup]

end Diarization
